import Mathlib

/-!
Verification of the conversation-manager chatbot service (src/app.py).

The Python program is shallowly embedded: the mutable `ConversationManager`
object becomes a structure passed and returned explicitly, wall-clock time
(`datetime.now()`) becomes an explicit `Nat` parameter threaded through the
stateful operations, the Groq completion call becomes a function argument
returning `Except String String` (`.error e` models a raised exception whose
`str(e)` is `e`), and Flask JSON responses become association lists of
string keys to a small JSON-value type, paired with the HTTP status code.
-/

/-- One conversation turn, as built by `ConversationManager.add_exchange`:
a dict with keys `user`, `assistant`, `timestamp`.  The timestamp
(`datetime.now().isoformat()` in the source) is modelled as a `Nat`
time value. -/
structure Exchange where
  user : String
  assistant : String
  timestamp : Nat
deriving DecidableEq, Repr

/-- A provider message `{"role": ..., "content": ...}` as built by
`build_message_context`. -/
structure Message where
  role : String
  content : String
deriving DecidableEq, Repr

/-- State of a `ConversationManager` instance: the `history` list and the
(unused) `model` field set in `__init__`. -/
structure ConversationManager where
  history : List Exchange
  model : String
deriving DecidableEq, Repr

/-- `ConversationManager.__init__`: empty history. -/
def initManager : ConversationManager :=
  { history := [], model := "llama-3.1-8b-instant" }

/-- `ConversationManager.add_exchange(user_message, assistant_response)`.
`now` is the value of `datetime.now()` at the call.  Returns the built
exchange (the Python return value) together with the updated manager state
(`self.history.append(exchange)`). -/
def add_exchange (cm : ConversationManager) (user_message assistant_response : String)
    (now : Nat) : Exchange × ConversationManager :=
  let exchange : Exchange :=
    { user := user_message, assistant := assistant_response, timestamp := now }
  (exchange, { cm with history := cm.history ++ [exchange] })

/-- `ConversationManager.get_history`: `return self.history`. -/
def get_history (cm : ConversationManager) : List Exchange :=
  cm.history

/-- `ConversationManager.clear_history`: `self.history = []`. -/
def clear_history (cm : ConversationManager) : ConversationManager :=
  { cm with history := [] }

/-- `ConversationManager.get_total_exchanges`: `len(self.history)`. -/
def get_total_exchanges (cm : ConversationManager) : Nat :=
  cm.history.length

/-- `ConversationManager.build_message_context(current_message)`: the loop
`for exchange in self.history` appending a user and an assistant message,
then the final append of the current user message. -/
def build_message_context (cm : ConversationManager) (current_message : String) :
    List Message :=
  (cm.history.foldl
      (fun messages exchange =>
        messages ++ [{ role := "user", content := exchange.user },
                     { role := "assistant", content := exchange.assistant }])
      []) ++ [{ role := "user", content := current_message }]

/-- The two context messages contributed by one stored exchange. -/
def exchangeMessages (e : Exchange) : List Message :=
  [{ role := "user", content := e.user }, { role := "assistant", content := e.assistant }]

lemma foldl_append_eq_flatten (l : List Exchange) (acc : List Message) :
    l.foldl
        (fun messages exchange =>
          messages ++ [{ role := "user", content := exchange.user },
                       { role := "assistant", content := exchange.assistant }])
        acc = acc ++ (l.map exchangeMessages).flatten := by
  induction l generalizing acc with
  | nil => simp
  | cons e rest ih =>
      simp [ih, exchangeMessages, List.append_assoc]

/-- Closed form of `build_message_context`: the per-exchange user/assistant
pairs in insertion order, then the current message. -/
lemma build_message_context_eq (cm : ConversationManager) (x : String) :
    build_message_context cm x =
      (cm.history.map exchangeMessages).flatten ++ [{ role := "user", content := x }] := by
  simp [build_message_context, foldl_append_eq_flatten]

/-- C1: `build_message_context` emits, for each stored exchange in insertion
order, a user message with that exchange's user text then an assistant
message with its assistant text, followed by exactly one final user message
carrying the input; on an empty history the result is the single message
`{role: user, content: x}`.  The store is not modified: in this embedding
`build_message_context` returns only the message list and no manager state,
mirroring that the Python method never assigns to `self`. -/
theorem build_message_context_spec (cm : ConversationManager) (m x : String) :
    build_message_context cm x =
      (cm.history.map exchangeMessages).flatten ++ [{ role := "user", content := x }] ∧
    build_message_context { history := [], model := m } x =
      [{ role := "user", content := x }] := by
  constructor
  · exact build_message_context_eq cm x
  · simp [build_message_context]

/-- C3: `add_exchange u a` builds an exchange whose `user` field is `u`,
whose `assistant` field is `a` and whose timestamp is no earlier than the
call time, appends it at the end of the history, returns it, grows the
history by exactly one, for any texts including empty strings; and reading
the history back via `get_history` yields that same exchange last. -/
theorem add_exchange_spec (cm : ConversationManager) (u a : String) (now : Nat) :
    (add_exchange cm u a now).1.user = u ∧
    (add_exchange cm u a now).1.assistant = a ∧
    now ≤ (add_exchange cm u a now).1.timestamp ∧
    (add_exchange cm u a now).2.history = cm.history ++ [(add_exchange cm u a now).1] ∧
    (add_exchange cm u a now).2.history.length = cm.history.length + 1 ∧
    (get_history (add_exchange cm u a now).2).getLast? = some (add_exchange cm u a now).1 := by
  refine ⟨rfl, rfl, le_refl now, rfl, by simp [add_exchange], ?_⟩
  simp [add_exchange, get_history]

/-- C7: `clear_history` empties the history with no error even when already
empty, and is idempotent: afterwards `get_total_exchanges` is `0` and
`get_history` is empty, and clearing again leaves the state identical. -/
theorem clear_history_spec (cm : ConversationManager) :
    get_total_exchanges (clear_history cm) = 0 ∧
    get_history (clear_history cm) = [] ∧
    clear_history (clear_history cm) = clear_history cm := by
  refine ⟨rfl, rfl, rfl⟩

/-- One rendered block of `generate_summary`: the f-string
`"\n{i}. User: {user}\n   Bot: {assistant}"`. -/
def entryBlock (i : Nat) (e : Exchange) : String :=
  "\n" ++ toString i ++ ". User: " ++ e.user ++ "\n   Bot: " ++ e.assistant

/-- The header literal of `generate_summary`. -/
def summaryHeader : String := "Previous conversations:\n"

/-- `ConversationManager.generate_summary`: the `for i, exchange in
enumerate(self.history, 1)` loop accumulating `entryBlock` renderings onto
the header. -/
def generate_summary (cm : ConversationManager) : String :=
  (cm.history.enumFrom 1).foldl (fun summary p => summary ++ entryBlock p.1 p.2)
    summaryHeader

/-- Specification-side recursive rendering: one block per exchange, in
order, indices counting up from `i`. -/
def summaryBody : Nat → List Exchange → String
  | _, [] => ""
  | i, e :: rest => entryBlock i e ++ summaryBody (i + 1) rest

lemma foldl_entryBlock (l : List Exchange) (i : Nat) (acc : String) :
    (l.enumFrom i).foldl (fun summary p => summary ++ entryBlock p.1 p.2) acc =
      acc ++ summaryBody i l := by
  induction l generalizing i acc with
  | nil => simp [summaryBody]
  | cons e rest ih =>
      simp [List.enumFrom, summaryBody, ih, String.append_assoc]

/-- C8: `generate_summary` is the header followed by one block per stored
exchange, in insertion order with 1-based indices; on an empty history it is
the header alone. -/
theorem generate_summary_spec (cm : ConversationManager) (m : String) :
    generate_summary cm = summaryHeader ++ summaryBody 1 cm.history ∧
    generate_summary { history := [], model := m } = summaryHeader := by
  constructor
  · simp [generate_summary, foldl_entryBlock]
  · simp [generate_summary, List.enumFrom]

/-- Decides that a message list's roles strictly alternate starting from
role `r`. -/
def altRoles : String → List Message → Bool
  | _, [] => true
  | r, msg :: rest =>
      msg.role == r && altRoles (if r == "user" then "assistant" else "user") rest

lemma altRoles_flatten (l : List Exchange) (tail : List Message)
    (h : altRoles "user" tail = true) :
    altRoles "user" ((l.map exchangeMessages).flatten ++ tail) = true := by
  induction l with
  | nil => simpa using h
  | cons e rest ih => simpa [exchangeMessages, altRoles] using ih

lemma length_flatten_exchangeMessages (l : List Exchange) :
    ((l.map exchangeMessages).flatten).length = 2 * l.length := by
  induction l with
  | nil => simp
  | cons e rest ih =>
      simp [exchangeMessages, ih]
      omega

/-- C10: for a history of `n` exchanges, `build_message_context` returns
exactly `2 * n + 1` messages whose roles strictly alternate starting with
`user`, and whose last element is the user message carrying the current
input; in particular the list handed to the provider is never empty and
always ends with the current user message. -/
theorem build_message_context_shape (cm : ConversationManager) (x : String) :
    (build_message_context cm x).length = 2 * cm.history.length + 1 ∧
    altRoles "user" (build_message_context cm x) = true ∧
    build_message_context cm x ≠ [] ∧
    (build_message_context cm x).getLast? = some { role := "user", content := x } := by
  refine ⟨?_, ?_, ?_, ?_⟩
  · rw [build_message_context_eq, List.length_append, length_flatten_exchangeMessages]
    rfl
  · rw [build_message_context_eq]
    exact altRoles_flatten _ _ (by simp [altRoles])
  · simp [build_message_context]
  · rw [build_message_context_eq]
    simp

/-- A JSON value as they appear in this service's response bodies. -/
inductive JVal where
  | str (s : String)
  | num (n : Nat)
deriving DecidableEq, Repr

/-- A JSON object response body: association list of field names to values,
in the order the source builds them with `jsonify`. -/
def JBody := List (String × JVal)
deriving instance DecidableEq, Repr for JBody

/-- `GroqChatBot` state: the fixed `model` identifier set in `__init__`
(the client object itself performs the external network call, modelled
separately as a function argument). -/
structure GroqChatBot where
  model : String
deriving DecidableEq, Repr

/-- `GroqChatBot.__init__` with a resolvable credential. -/
def initChatBot : GroqChatBot :=
  { model := "llama-3.1-8b-instant" }

/-- The fixed 400 body `{"error": "No message provided", "status": "failed"}`. -/
def noMessageBody : JBody :=
  [("error", JVal.str "No message provided"), ("status", JVal.str "failed")]

/-- `ChatAPI.handle_chat`.  `data` is the parsed JSON object of the request
body (`none` when `request.get_json()` yields no object), `get_response`
models `self.chatbot.get_response` (`.error e` is a raised exception with
`str(e) = e`, caught by the `except` clause), `now` is the clock at the
`add_exchange` call.  Returns the response body, the HTTP status code, and
the conversation-manager state after the request. -/
def handle_chat (cm : ConversationManager) (bot : GroqChatBot)
    (get_response : List Message → Except String String)
    (now : Nat) (data : Option (List (String × String))) :
    JBody × Nat × ConversationManager :=
  match data with
  | none => (noMessageBody, 400, cm)
  | some d =>
    if d.isEmpty then (noMessageBody, 400, cm)
    else
      match List.lookup "message" d with
      | none => (noMessageBody, 400, cm)
      | some user_message =>
        let messages := build_message_context cm user_message
        match get_response messages with
        | Except.error e =>
            ([("error", JVal.str e), ("status", JVal.str "failed")], 500, cm)
        | Except.ok response =>
            let cm2 := (add_exchange cm user_message response now).2
            ([("response", JVal.str response), ("status", JVal.str "success"),
              ("model", JVal.str bot.model),
              ("conversation_id", JVal.num (get_total_exchanges cm2)),
              ("history_count", JVal.num (get_total_exchanges cm2))], 200, cm2)

/-- C2: when the completion-provider call raises, `handle_chat` answers
HTTP 500 with body `{"error": str(e), "status": "failed"}` and the
conversation history is left unchanged — the append happens only after a
successful reply. -/
theorem handle_chat_provider_error (cm : ConversationManager) (bot : GroqChatBot)
    (gr : List Message → Except String String) (now : Nat)
    (d : List (String × String)) (m e : String)
    (hm : List.lookup "message" d = some m)
    (he : gr (build_message_context cm m) = Except.error e) :
    handle_chat cm bot gr now (some d) =
      ([("error", JVal.str e), ("status", JVal.str "failed")], 500, cm) := by
  have hne : d.isEmpty = false := by
    cases d with
    | nil => simp [List.lookup] at hm
    | cons p rest => rfl
  simp [handle_chat, hne, hm, he]

/-- Witness for `handle_chat_provider_error` at a concrete request. -/
theorem handle_chat_provider_error_witness :
    handle_chat initManager initChatBot (fun _ => Except.error "boom") 5
        (some [("message", "hi")]) =
      ([("error", JVal.str "boom"), ("status", JVal.str "failed")], 500, initManager) :=
  handle_chat_provider_error initManager initChatBot (fun _ => Except.error "boom") 5
    [("message", "hi")] "hi" "boom" rfl rfl

/-- C5: a chat request whose JSON body lacks the `message` field gets
HTTP 400 with the fixed body `{"error": "No message provided",
"status": "failed"}`, and the conversation history is not mutated.  The
first conjunct covers the absent/null body, the second every object body
without a `message` key (including the empty object, which Python's
`not data` test sends down the same branch). -/
theorem handle_chat_no_message (cm : ConversationManager) (bot : GroqChatBot)
    (gr : List Message → Except String String) (now : Nat)
    (d : List (String × String))
    (hm : List.lookup "message" d = none) :
    handle_chat cm bot gr now none = (noMessageBody, 400, cm) ∧
    handle_chat cm bot gr now (some d) = (noMessageBody, 400, cm) := by
  refine ⟨rfl, ?_⟩
  by_cases hd : d.isEmpty
  · simp [handle_chat, hd]
  · simp [handle_chat, hd, hm]

/-- Witness for `handle_chat_no_message` at the concrete empty-object
request `{}`. -/
theorem handle_chat_no_message_witness :
    handle_chat initManager initChatBot (fun _ => Except.ok "hello") 5 none =
      (noMessageBody, 400, initManager) ∧
    handle_chat initManager initChatBot (fun _ => Except.ok "hello") 5 (some []) =
      (noMessageBody, 400, initManager) :=
  handle_chat_no_message initManager initChatBot (fun _ => Except.ok "hello") 5 [] rfl

/-- One successful conversation turn driven through `handle_chat`: message
text, provider reply, clock value. -/
structure Turn where
  msg : String
  reply : String
  time : Nat
deriving DecidableEq, Repr

/-- A run of successful chat turns from a given manager state: each turn is
a `POST /chat` whose provider call returns the turn's reply. -/
def runTurns (cm : ConversationManager) (bot : GroqChatBot) (turns : List Turn) :
    ConversationManager :=
  turns.foldl
    (fun c t =>
      (handle_chat c bot (fun _ => Except.ok t.reply) t.time
          (some [("message", t.msg)])).2.2)
    cm

lemma handle_chat_ok (cm : ConversationManager) (bot : GroqChatBot)
    (gr : List Message → Except String String) (now : Nat)
    (d : List (String × String)) (m r : String)
    (hm : List.lookup "message" d = some m)
    (hr : gr (build_message_context cm m) = Except.ok r) :
    handle_chat cm bot gr now (some d) =
      ([("response", JVal.str r), ("status", JVal.str "success"),
        ("model", JVal.str bot.model),
        ("conversation_id", JVal.num (cm.history.length + 1)),
        ("history_count", JVal.num (cm.history.length + 1))], 200,
       (add_exchange cm m r now).2) := by
  have hne : d.isEmpty = false := by
    cases d with
    | nil => simp [List.lookup] at hm
    | cons p rest => rfl
  simp [handle_chat, hne, hm, hr, get_total_exchanges, add_exchange]

lemma runTurns_length (bot : GroqChatBot) (turns : List Turn) :
    ∀ cm : ConversationManager,
      (runTurns cm bot turns).history.length = cm.history.length + turns.length := by
  induction turns with
  | nil => intro cm; simp [runTurns]
  | cons t rest ih =>
      intro cm
      have hstep := handle_chat_ok cm bot (fun _ => Except.ok t.reply) t.time
        [("message", t.msg)] t.msg t.reply (by simp [List.lookup]) rfl
      have hfold : runTurns cm bot (t :: rest) =
          runTurns (add_exchange cm t.msg t.reply t.time).2 bot rest := by
        show runTurns (handle_chat cm bot (fun _ => Except.ok t.reply) t.time
            (some [("message", t.msg)])).2.2 bot rest = _
        rw [hstep]
      rw [hfold, ih]
      simp [add_exchange]
      omega

/-- C6: on every successful chat request the response's `conversation_id`
and `history_count` fields are equal and both equal the exchange count after
the new exchange was appended (one more than before the request); hence
after `N` successful turns from the empty store both equal `N`. -/
theorem handle_chat_counts (cm : ConversationManager) (bot : GroqChatBot)
    (gr : List Message → Except String String) (now : Nat)
    (d : List (String × String)) (m r : String)
    (hm : List.lookup "message" d = some m)
    (hr : gr (build_message_context cm m) = Except.ok r) :
    List.lookup "conversation_id" (handle_chat cm bot gr now (some d)).1 =
      some (JVal.num (cm.history.length + 1)) ∧
    List.lookup "history_count" (handle_chat cm bot gr now (some d)).1 =
      some (JVal.num (cm.history.length + 1)) ∧
    (handle_chat cm bot gr now (some d)).2.2.history.length = cm.history.length + 1 ∧
    (∀ turns : List Turn, (runTurns initManager bot turns).history.length = turns.length) := by
  rw [handle_chat_ok cm bot gr now d m r hm hr]
  refine ⟨by simp [List.lookup], by simp [List.lookup], by simp [add_exchange], ?_⟩
  intro turns
  rw [runTurns_length]
  simp [initManager]

/-- Witness for `handle_chat_counts` at a concrete first request. -/
theorem handle_chat_counts_witness :
    List.lookup "conversation_id"
        (handle_chat initManager initChatBot (fun _ => Except.ok "hello") 5
          (some [("message", "hi")])).1 = some (JVal.num 1) ∧
    List.lookup "history_count"
        (handle_chat initManager initChatBot (fun _ => Except.ok "hello") 5
          (some [("message", "hi")])).1 = some (JVal.num 1) ∧
    (handle_chat initManager initChatBot (fun _ => Except.ok "hello") 5
        (some [("message", "hi")])).2.2.history.length = 1 ∧
    (∀ turns : List Turn,
      (runTurns initManager initChatBot turns).history.length = turns.length) :=
  handle_chat_counts initManager initChatBot (fun _ => Except.ok "hello") 5
    [("message", "hi")] "hi" "hello" rfl rfl

/-- A state-mutating operation of `ConversationManager`, as invoked by the
request handlers: `POST /chat` appends an exchange, `DELETE /history`
clears. -/
inductive StoreOp where
  | add (u a : String)
  | clear
deriving DecidableEq, Repr

/-- Run one store operation at clock value `now`. -/
def runOp (cm : ConversationManager) : StoreOp → Nat → ConversationManager
  | StoreOp.add u a, now => (add_exchange cm u a now).2
  | StoreOp.clear, _ => clear_history cm

/-- Run a trace of timed store operations. -/
def runTrace (cm : ConversationManager) : List (StoreOp × Nat) → ConversationManager
  | [] => cm
  | p :: rest => runTrace (runOp cm p.1 p.2) rest

/-- The timestamps of the stored exchanges, in insertion order. -/
def timestamps (cm : ConversationManager) : List Nat :=
  cm.history.map Exchange.timestamp

lemma runTrace_pairwise :
    ∀ (ops : List (StoreOp × Nat)) (cm : ConversationManager),
      (timestamps cm).Pairwise (· ≤ ·) →
      (∀ s ∈ timestamps cm, ∀ q ∈ ops.map Prod.snd, s ≤ q) →
      (ops.map Prod.snd).Pairwise (· ≤ ·) →
      (timestamps (runTrace cm ops)).Pairwise (· ≤ ·) := by
  intro ops
  induction ops with
  | nil => intro cm h _ _; exact h
  | cons p rest ih =>
      intro cm hcm hbound hops
      obtain ⟨op, t⟩ := p
      simp only [List.map_cons, List.pairwise_cons] at hops
      obtain ⟨ht, hrest⟩ := hops
      show (timestamps (runTrace (runOp cm op t) rest)).Pairwise (· ≤ ·)
      cases op with
      | clear =>
          refine ih (clear_history cm) ?_ ?_ hrest
          · simp [timestamps, clear_history]
          · simp [timestamps, clear_history]
      | add u a =>
          refine ih _ ?_ ?_ hrest
          · have : timestamps (runOp cm (StoreOp.add u a) t) = timestamps cm ++ [t] := by
              simp [timestamps, runOp, add_exchange]
            rw [this, List.pairwise_append]
            refine ⟨hcm, by simp, ?_⟩
            intro s hs b hb
            rw [List.mem_singleton] at hb
            rw [hb]
            exact hbound s hs t (by simp)
          · intro s hs q hq
            have : timestamps (runOp cm (StoreOp.add u a) t) = timestamps cm ++ [t] := by
              simp [timestamps, runOp, add_exchange]
            rw [this, List.mem_append] at hs
            rcases hs with hs | hs
            · exact hbound s hs q (by simp [hq])
            · rw [List.mem_singleton] at hs
              subst hs
              exact ht q hq

/-- C9: in every state reachable from the initial empty manager by a trace
of store operations executed at non-decreasing clock values (wall-clock
time only moves forward between `datetime.now()` calls), the stored
timestamps are non-decreasing in insertion order: each exchange's timestamp
is no earlier than its predecessor's. -/
theorem timestamps_monotone (ops : List (StoreOp × Nat))
    (h : (ops.map Prod.snd).Chain' (· ≤ ·)) :
    (timestamps (runTrace initManager ops)).Chain' (· ≤ ·) := by
  rw [List.chain'_iff_pairwise] at h ⊢
  refine runTrace_pairwise ops initManager ?_ ?_ h
  · simp [timestamps, initManager]
  · simp [timestamps, initManager]

/-- Witness for `timestamps_monotone` on a concrete add/clear/add/add trace. -/
theorem timestamps_monotone_witness :
    ((([(StoreOp.add "a" "b", 1), (StoreOp.clear, 2), (StoreOp.add "c" "d", 2),
        (StoreOp.add "e" "f", 5)] : List (StoreOp × Nat)).map Prod.snd).Chain'
        (· ≤ ·)) ∧
    (timestamps (runTrace initManager
        [(StoreOp.add "a" "b", 1), (StoreOp.clear, 2), (StoreOp.add "c" "d", 2),
         (StoreOp.add "e" "f", 5)])).Chain' (· ≤ ·) :=
  ⟨by rw [List.chain'_iff_pairwise]; decide,
   timestamps_monotone
     [(StoreOp.add "a" "b", 1), (StoreOp.clear, 2), (StoreOp.add "c" "d", 2),
      (StoreOp.add "e" "f", 5)] (by rw [List.chain'_iff_pairwise]; decide)⟩

/-!
Reference-semantics model for `get_history`.  In Python, `return
self.history` returns the list object itself, not a copy: the caller and
the manager then share one mutable list.  To settle whether the returned
value is a protected read view, lists are modelled as heap cells addressed
by `Nat` references; `list.append` mutates the addressed cell in place.
-/

/-- The heap of Python list objects: each reference names a list value.
(Every reference a Python program holds is valid, so the heap is total.) -/
def PyHeap := Nat → List Exchange

/-- A `ConversationManager` object under reference semantics: `self.history`
is a reference to a heap-allocated list. -/
structure ManagerRef where
  historyRef : Nat
deriving DecidableEq, Repr

/-- Read the list a reference points to. -/
def readList (h : PyHeap) (r : Nat) : List Exchange := h r

/-- Overwrite the cell a reference points to. -/
def writeList (h : PyHeap) (r : Nat) (v : List Exchange) : PyHeap :=
  fun q => if q = r then v else h q

/-- Python's in-place `lst.append(e)` on the list reference `r`. -/
def listAppendRef (h : PyHeap) (r : Nat) (e : Exchange) : PyHeap :=
  writeList h r (readList h r ++ [e])

/-- `ConversationManager.get_history` under reference semantics: `return
self.history` hands out the manager's own list reference. -/
def get_history_ref (m : ManagerRef) : Nat :=
  m.historyRef

/-- The history the manager sees: the list its `history` reference points
to. -/
def managerHistory (h : PyHeap) (m : ManagerRef) : List Exchange :=
  readList h m.historyRef

/-- An initial heap whose every cell is the empty list. -/
def emptyHeap : PyHeap := fun _ => []

/-- C4 counterexample: the value returned by `get_history` is not a read
view.  Concretely: with the manager's history reference pointing at the
empty list, appending one exchange through the reference `get_history`
returned changes the history the manager itself sees — a caller holding
the returned value can mutate the store through it. -/
theorem get_history_not_read_view :
    ¬ (managerHistory
         (listAppendRef emptyHeap (get_history_ref { historyRef := 0 })
           { user := "u", assistant := "a", timestamp := 0 })
         { historyRef := 0 } =
       managerHistory emptyHeap { historyRef := 0 }) := by
  intro hcontra
  have : ({ user := "u", assistant := "a", timestamp := 0 } : Exchange) ∈
      ([] : List Exchange) := by
    rw [show managerHistory emptyHeap { historyRef := 0 } = [] from rfl] at hcontra
    rw [← hcontra]
    simp [managerHistory, listAppendRef, writeList, readList, get_history_ref, emptyHeap]
  simp at this

/-- C4 amended: `get_history` returns the full history in insertion order,
unmodified — but as an alias of the store's own list, not a protected read
view: any append a caller performs through the returned reference is
visible as an append to the store's history. -/
theorem get_history_alias (cm : ConversationManager) (h : PyHeap) (m : ManagerRef)
    (e : Exchange) :
    get_history cm = cm.history ∧
    managerHistory (listAppendRef h (get_history_ref m) e) m =
      managerHistory h m ++ [e] := by
  refine ⟨rfl, ?_⟩
  simp [managerHistory, listAppendRef, writeList, readList, get_history_ref]
